import Mathlib

/-!
Shallow embedding of the go-unit-service repository.

Sources:
* `src/internal/entities/unit/unit.go` — package `unit`: the `Unit` entity
  with struct-tag validation (`validator/v10`), `New`, `Validate`, `Touch`,
  `MarkDeleted`.  This is the package the use-case and service layers import
  (path `go-unit-service/internal/entities/unit`).
* `src/unnamed/part_000` — three Go files:
  package `unitUseCase` (the `UseCase` with `ErrBadParams`,
  `ErrUserIDMissing`, `ErrUserIDMismatch`), package `unit` (the simpler
  `Service` variant), and package `unitEntity` (an entity variant whose
  `Validate` adds explicit zero-`DeletedAt` / nil-`UserID` checks).

Modelling conventions:
* `uuid.UUID` is modelled as `Nat`; `uuid.Nil` is `0`.
* `time.Time` is modelled as `Nat`; the zero/epoch time is `0` and the Go
  ordering `Before`/`After` is the `Nat` order.  Each call of `time.Now()`
  or `uuid.New()` in the Go code becomes an explicit `now` / fresh-id
  parameter of the embedded function.
* Go `int` is modelled as `Int`; where the code increments a version
  counter, the two's-complement wrap of a 64-bit `int` is made explicit
  (`wrap64`), since Go defines signed overflow as wrap-around.
* `mo.Option[T]` is `Option T`; Go errors become explicit error inductives;
  a Go func returning `(T, error)` becomes `Except E T`.
* The repository interface is modelled by response functions, and every
  embedded use-case/service operation additionally returns the list of
  repository calls it issued, so that "issues no repository call" is a
  provable statement.
-/

namespace UnitService

/-- Model of `uuid.Nil`, the all-zero UUID (`uuid.UUID` values are
modelled as `Nat`). -/
def uuidNil : Nat := 0

/-- Two's-complement wrap-around of Go 64-bit `int` arithmetic
(Go defines signed integer overflow as wrapping). -/
def wrap64 (x : Int) : Int :=
  (x + 2 ^ 63) % 2 ^ 64 - 2 ^ 63

/-- The `Unit` entity of `src/internal/entities/unit/unit.go` (the
`unitEntity` variant in `src/unnamed/part_000` has the identical fields). -/
structure Unit where
  ID : Nat
  Version : Int
  CreatedAt : Nat
  UpdatedAt : Nat
  DeletedAt : Option Nat
  UserID : Option Nat
  Name : String
deriving DecidableEq

/-- Validation failures.  `fieldErr` stands for a `validator/v10` field
error (field name, violated tag); `deletedAtZero` and `userIDNil` are the
two explicit checks of the `unitEntity` variant's `Validate`. -/
inductive ValidationError where
  | fieldErr (field : String) (tag : String)
  | deletedAtZero
  | userIDNil
deriving DecidableEq

/-- Embedding of `validate.Struct(u)` for the tag set shared by both entity
variants: `ID` `required`; `Version` `required,gt=0`; `CreatedAt`
`required`; `UpdatedAt` `required,gtecsfield=CreatedAt`; `Name` `required`;
`DeletedAt` and `UserID` carry no effective constraint (`omitempty` with no
further tag, and `mo.Option` has only unexported fields).  `validator/v10`
aggregates all field errors; we return the first, which yields the same
success condition.  `required` fails exactly on the zero value, `gt=0` on
values `≤ 0`, `gtecsfield=CreatedAt` when `UpdatedAt < CreatedAt`. -/
def Unit.validateTags (u : Unit) : Option ValidationError :=
  if u.ID = 0 then some (.fieldErr "ID" "required")
  else if u.Version = 0 then some (.fieldErr "Version" "required")
  else if u.Version ≤ 0 then some (.fieldErr "Version" "gt")
  else if u.CreatedAt = 0 then some (.fieldErr "CreatedAt" "required")
  else if u.UpdatedAt = 0 then some (.fieldErr "UpdatedAt" "required")
  else if u.UpdatedAt < u.CreatedAt then some (.fieldErr "UpdatedAt" "gtecsfield")
  else if u.Name = "" then some (.fieldErr "Name" "required")
  else none

/-- `Unit.Validate` of `src/internal/entities/unit/unit.go` (lines 37–40):
`validate := validator.New(); return validate.Struct(u)` — the tag checks
only.  `none` means the Go call returned a nil error. -/
def Unit.Validate (u : Unit) : Option ValidationError :=
  u.validateTags

/-- `Unit.Validate` of the `unitEntity` package in `src/unnamed/part_000`
(lines 301–316): the tag checks (wrapped with `validate unit: %w`, which
does not change the classification), then the explicit checks
`DeletedAt.IsPresent() && DeletedAt.MustGet().IsZero()` and
`UserID.IsPresent() && UserID.MustGet() == uuid.Nil`. -/
def Unit.ValidateEntity (u : Unit) : Option ValidationError :=
  match u.validateTags with
  | some e => some e
  | none =>
    if u.DeletedAt = some 0 then some .deletedAtZero
    else if u.UserID = some 0 then some .userIDNil
    else none

/-- `New` of `src/internal/entities/unit/unit.go` (lines 23–34); the
`unitEntity` variant (part_000 lines 287–298) is textually identical.
`id` stands for the fresh `uuid.New()`, `now` for `time.Now()`; the Go
composite literal leaves `DeletedAt` at its zero value, the absent
option. -/
def New (id : Nat) (now : Nat) (userID : Option Nat) (name : String) : Unit :=
  { ID := id
    Version := 1
    CreatedAt := now
    UpdatedAt := now
    DeletedAt := none
    UserID := userID
    Name := name }

/-- `Unit.Touch` (unit.go lines 43–50) on an addressable value: increments
`Version` (64-bit `int` arithmetic) and sets `UpdatedAt` to `now`
(`time.Now()`). -/
def Unit.Touch (u : Unit) (now : Nat) : Unit :=
  { u with Version := wrap64 (u.Version + 1), UpdatedAt := now }

/-- `Unit.Touch` as called through a possibly-nil `*Unit` receiver: the
`if u == nil { return }` guard makes it a no-op on the absent reference. -/
def touchRef (u : Option Unit) (now : Nat) : Option Unit :=
  match u with
  | none => none
  | some v => some (v.Touch now)

/-- `Unit.MarkDeleted` (unit.go lines 53–61) on an addressable value: sets
both `UpdatedAt` and `DeletedAt` to the same `now` (`time.Now()`);
`Version` is untouched. -/
def Unit.MarkDeleted (u : Unit) (now : Nat) : Unit :=
  { u with UpdatedAt := now, DeletedAt := some now }

/-- `Unit.MarkDeleted` through a possibly-nil `*Unit` receiver. -/
def markDeletedRef (u : Option Unit) (now : Nat) : Option Unit :=
  match u with
  | none => none
  | some v => some (v.MarkDeleted now)

/-! Spec-side invariant predicates, written from the words of spec §3
("Invariants (must hold after every successful `Validate`)"), to be
compared with the embedded `Validate` functions. -/

/-- Spec invariant 1: `id`, `createdAt`, `updatedAt`, `name` are
present/non-empty. -/
def specFieldsPresent (u : Unit) : Prop :=
  u.ID ≠ 0 ∧ u.CreatedAt ≠ 0 ∧ u.UpdatedAt ≠ 0 ∧ u.Name ≠ ""

/-- Spec invariant 2: `version ≥ 1`. -/
def specVersionPos (u : Unit) : Prop :=
  1 ≤ u.Version

/-- Spec invariant 3: `updatedAt ≥ createdAt`. -/
def specUpdatedGeCreated (u : Unit) : Prop :=
  u.CreatedAt ≤ u.UpdatedAt

/-- Spec invariant 4: if `deletedAt` is present, it is not the zero
timestamp. -/
def specDeletedAtNonzero (u : Unit) : Prop :=
  ∀ t, u.DeletedAt = some t → t ≠ 0

/-- Spec invariant 5: if `userID` is present, it is not the nil
identifier. -/
def specUserIDNonNil (u : Unit) : Prop :=
  ∀ x, u.UserID = some x → x ≠ 0

/-- All five invariants of spec §3. -/
def specInvariants (u : Unit) : Prop :=
  specFieldsPresent u ∧ specVersionPos u ∧ specUpdatedGeCreated u ∧
    specDeletedAtNonzero u ∧ specUserIDNonNil u

/-! The `unitUseCase` package of `src/unnamed/part_000` (lines 1–136). -/

/-- Model of a Go repository-layer error (the message of the error the
injected `Repository` implementation returned). -/
abbrev RepoError := String

/-- One call issued to the `Repository` interface of package
`unitUseCase`, with its arguments.  `create` and `update` are the only
writes. -/
inductive RepoCall where
  | getByIDs (ids : List Nat)
  | getAll (userID : Nat) (substring : Option String)
  | create (u : Unit)
  | update (u : Unit)
deriving DecidableEq

/-- Behaviour of an injected `Repository` implementation: the response it
gives to each call.  `none` from `createResp`/`updateResp` means the write
succeeded. -/
structure Repo where
  getByIDsResp : List Nat → Except RepoError (List Unit)
  getAllResp : Nat → Option String → Except RepoError (List Unit)
  createResp : Unit → Option RepoError
  updateResp : Unit → Option RepoError

/-- Errors returned by the `UseCase` methods.  `badParams detail` stands
for `errors.Join(ErrBadParams, fmt.Errorf(detail...))`; `userIDMissing` and
`userIDMismatch` are `ErrUserIDMissing` / `ErrUserIDMismatch`; `wrongCount`
is the plain `fmt.Errorf("...: expected 1 unit, got %d", ...)` (wrapping no
sentinel error); `repoErr context e` is `fmt.Errorf(context+": %w", e)`
around a repository error. -/
inductive UCError where
  | badParams (detail : String)
  | userIDMissing
  | userIDMismatch
  | wrongCount (context : String) (got : Nat)
  | repoErr (context : String) (e : RepoError)
deriving DecidableEq

/-- `UseCase.GetByIDs` (part_000 lines 42–53).  Returns the Go result and
the list of repository calls issued. -/
def UseCase.GetByIDs (repo : Repo) (ids : List Nat) :
    Except UCError (List Unit) × List RepoCall :=
  if ids.length = 0 then
    (.error (.badParams "ids must not be empty"), [])
  else
    match repo.getByIDsResp ids with
    | .error e => (.error (.repoErr "get units by ids" e), [.getByIDs ids])
    | .ok units => (.ok units, [.getByIDs ids])

/-- `UseCase.GetAll` (part_000 lines 56–67).  The Go guard is
`substring.IsPresent() && substring.MustGet() == ""`, i.e. the filter is
the present empty string. -/
def UseCase.GetAll (repo : Repo) (userID : Nat) (substring : Option String) :
    Except UCError (List Unit) × List RepoCall :=
  if substring = some "" then
    (.error (.badParams "substring must not be empty when set"), [])
  else
    match repo.getAllResp userID substring with
    | .error e => (.error (.repoErr "get all units" e), [.getAll userID substring])
    | .ok units => (.ok units, [.getAll userID substring])

/-- `UseCase.Create` (part_000 lines 70–81): builds
`unitEntity.New(mo.Some(userID), name)` (so the owner is always present),
validates with the tag-only `Validate` of
`src/internal/entities/unit/unit.go` (the package the use case imports),
and persists on success.  `newID`/`now` stand for `uuid.New()` /
`time.Now()` inside `New`. -/
def UseCase.Create (repo : Repo) (newID : Nat) (now : Nat)
    (userID : Nat) (name : String) : Except UCError Unit × List RepoCall :=
  let unit := New newID now (some userID) name
  match unit.Validate with
  | some _ => (.error (.badParams "validate unit create"), [])
  | none =>
    match repo.createResp unit with
    | some e => (.error (.repoErr "create unit" e), [.create unit])
    | none => (.ok unit, [.create unit])

/-- `UseCase.Update` (part_000 lines 84–115): fetches by id through
`GetByIDs([id])`, requires exactly one result, requires a present owner
equal to `userID`, then `Touch`es, renames, re-validates (tag-only
`Validate`) and persists. -/
def UseCase.Update (repo : Repo) (now : Nat) (id : Nat) (userID : Nat)
    (name : String) : Except UCError Unit × List RepoCall :=
  match repo.getByIDsResp [id] with
  | .error e => (.error (.repoErr "get unit by id for update" e), [.getByIDs [id]])
  | .ok units =>
    match units with
    | [unit] =>
      match unit.UserID with
      | none => (.error .userIDMissing, [.getByIDs [id]])
      | some owner =>
        if owner ≠ userID then
          (.error .userIDMismatch, [.getByIDs [id]])
        else
          let unit1 := { unit.Touch now with Name := name }
          match unit1.Validate with
          | some _ => (.error (.badParams "validate unit update"), [.getByIDs [id]])
          | none =>
            match repo.updateResp unit1 with
            | some e =>
              (.error (.repoErr "update unit" e), [.getByIDs [id], .update unit1])
            | none => (.ok unit1, [.getByIDs [id], .update unit1])
    | _ =>
      (.error (.wrongCount "get unit by id for update" units.length), [.getByIDs [id]])

/-- `UseCase.Delete` (part_000 lines 118–136): fetches by id, requires
exactly one result, `MarkDeleted`s it (no ownership check) and persists via
the repository `Update`. -/
def UseCase.Delete (repo : Repo) (now : Nat) (id : Nat) :
    Except UCError Unit × List RepoCall :=
  match repo.getByIDsResp [id] with
  | .error e => (.error (.repoErr "get unit by id for delete" e), [.getByIDs [id]])
  | .ok units =>
    match units with
    | [unit] =>
      let unit1 := unit.MarkDeleted now
      match repo.updateResp unit1 with
      | some e =>
        (.error (.repoErr "update unit for delete" e), [.getByIDs [id], .update unit1])
      | none => (.ok unit1, [.getByIDs [id], .update unit1])
    | _ =>
      (.error (.wrongCount "get unit by id for delete" units.length), [.getByIDs [id]])

/-! The simpler `Service` variant, package `unit` of `src/unnamed/part_000`
(lines 137–263).  Its `Repository` has single-id `GetByID` and
argument-less `GetAll`; its errors are returned raw. -/

/-- One call issued to the `Service`'s `Repository`. -/
inductive SCall where
  | getByID (id : Nat)
  | getAll
  | create (u : Unit)
  | update (u : Unit)
deriving DecidableEq

/-- Behaviour of the `Service`'s injected repository. -/
structure SRepo where
  getByIDResp : Nat → Except RepoError Unit
  getAllResp : Except RepoError (List Unit)
  createResp : Unit → Option RepoError
  updateResp : Unit → Option RepoError

/-- Errors returned by the `Service` methods: the sentinel ownership
errors, a validation error passed through (raw from `Create`, wrapped with
`validate unit update: %w` in `Update` — same classification), or a raw
repository error. -/
inductive SvcError where
  | userIDMissing
  | userIDMismatch
  | validation (e : ValidationError)
  | repoErr (e : RepoError)
deriving DecidableEq

/-- `Service.GetAllFiltered` (part_000 lines 186–204): fetches all units
first, returns them unfiltered when `substring == ""`, else keeps those
whose `Name` contains `substring` (`strings.Contains`). -/
def Service.GetAllFiltered (repo : SRepo) (substring : String) :
    Except SvcError (List Unit) × List SCall :=
  match repo.getAllResp with
  | .error e => (.error (.repoErr e), [.getAll])
  | .ok units =>
    if substring = "" then (.ok units, [.getAll])
    else
      (.ok (units.filter fun u => u.Name.containsSubstr substring.toSubstring), [.getAll])

/-- `Service.Update` (part_000 lines 221–247): single-id fetch, the same
ownership checks as `UseCase.Update`, then `Touch`, rename, tag-only
re-validation, and persist. -/
def Service.Update (repo : SRepo) (now : Nat) (id : Nat) (userID : Nat)
    (name : String) : Except SvcError Unit × List SCall :=
  match repo.getByIDResp id with
  | .error e => (.error (.repoErr e), [.getByID id])
  | .ok unit =>
    match unit.UserID with
    | none => (.error .userIDMissing, [.getByID id])
    | some owner =>
      if owner ≠ userID then
        (.error .userIDMismatch, [.getByID id])
      else
        let unit1 := { unit.Touch now with Name := name }
        match unit1.Validate with
        | some e => (.error (.validation e), [.getByID id])
        | none =>
          match repo.updateResp unit1 with
          | some e => (.error (.repoErr e), [.getByID id, .update unit1])
          | none => (.ok unit1, [.getByID id, .update unit1])

/-- `Service.Delete` (part_000 lines 250–263). -/
def Service.Delete (repo : SRepo) (now : Nat) (id : Nat) :
    Except SvcError Unit × List SCall :=
  match repo.getByIDResp id with
  | .error e => (.error (.repoErr e), [.getByID id])
  | .ok unit =>
    let unit1 := unit.MarkDeleted now
    match repo.updateResp unit1 with
    | some e => (.error (.repoErr e), [.getByID id, .update unit1])
    | none => (.ok unit1, [.getByID id, .update unit1])

/-! Concrete fixtures used to instantiate theorems with hypotheses. -/

/-- A stored unit owned by user `5`. -/
def sampleUnit : Unit :=
  { ID := 7, Version := 3, CreatedAt := 2, UpdatedAt := 4, DeletedAt := none,
    UserID := some 5, Name := "alpha" }

/-- A stored unit with no owner recorded. -/
def orphanUnit : Unit :=
  { sampleUnit with UserID := none }

/-- A stored unit already soft-deleted. -/
def deletedUnit : Unit :=
  { sampleUnit with DeletedAt := some 3 }

/-- A stored unit whose version counter sits at the 64-bit `int`
maximum. -/
def maxVersionUnit : Unit :=
  { ID := 1, Version := 2 ^ 63 - 1, CreatedAt := 1, UpdatedAt := 1,
    DeletedAt := none, UserID := none, Name := "a" }

/-- A unit violating spec invariant 4: `DeletedAt` present but zero. -/
def zeroDeletedUnit : Unit :=
  { ID := 1, Version := 1, CreatedAt := 1, UpdatedAt := 1,
    DeletedAt := some 0, UserID := none, Name := "a" }

/-- A repository whose batch fetch always answers `us` and whose writes
always succeed. -/
def mkRepo (us : List Unit) : Repo :=
  { getByIDsResp := fun _ => .ok us
    getAllResp := fun _ _ => .ok []
    createResp := fun _ => none
    updateResp := fun _ => none }

/-- A `Service` repository whose single fetch always answers `u` and whose
writes always succeed. -/
def mkSRepo (u : Unit) : SRepo :=
  { getByIDResp := fun _ => .ok u
    getAllResp := .ok []
    createResp := fun _ => none
    updateResp := fun _ => none }

/-- Repository holding `sampleUnit`. -/
def sampleRepo : Repo := mkRepo [sampleUnit]

/-- Repository holding `orphanUnit`. -/
def orphanRepo : Repo := mkRepo [orphanUnit]

/-- Repository holding no unit at the fetched id. -/
def emptyRepo : Repo := mkRepo []

/-- `Service` repository holding `sampleUnit`. -/
def sampleSRepo : SRepo := mkSRepo sampleUnit

/-- `Service` repository holding `orphanUnit`. -/
def orphanSRepo : SRepo := mkSRepo orphanUnit

/-! Helper lemmas shared by the claim theorems. -/

/-- The struct-tag validation succeeds exactly when spec invariants 1–3
hold (stated with the concrete field conditions). -/
theorem validateTags_none_iff (u : Unit) :
    u.validateTags = none ↔
      (u.ID ≠ 0 ∧ 1 ≤ u.Version ∧ u.CreatedAt ≠ 0 ∧ u.UpdatedAt ≠ 0 ∧
        u.CreatedAt ≤ u.UpdatedAt ∧ u.Name ≠ "") := by
  constructor
  · intro h
    unfold Unit.validateTags at h
    split_ifs at h with h1 h2 h3 h4 h5 h6 h7
    all_goals try simp at h
    exact ⟨h1, by omega, h4, h5, by omega, h7⟩
  · rintro ⟨h1, h2, h3, h4, h5, h6⟩
    have hv0 : ¬(u.Version = 0) := by omega
    have hvle : ¬(u.Version ≤ 0) := by omega
    have hlt : ¬(u.UpdatedAt < u.CreatedAt) := by omega
    unfold Unit.validateTags
    rw [if_neg h1, if_neg hv0, if_neg hvle, if_neg h3, if_neg h4,
      if_neg hlt, if_neg h6]

/-- Success shape of the `unitEntity` variant's `Validate`. -/
theorem validateEntity_none_iff_parts (u : Unit) :
    Unit.ValidateEntity u = none ↔
      (u.validateTags = none ∧ u.DeletedAt ≠ some 0 ∧ u.UserID ≠ some 0) := by
  unfold Unit.ValidateEntity
  cases htag : u.validateTags with
  | some e => simp [htag]
  | none => split_ifs <;> simp_all

/-- Spec invariant 4 is exactly "DeletedAt is not the present zero
timestamp". -/
theorem spec_deletedAt_nonzero_iff (u : Unit) :
    specDeletedAtNonzero u ↔ u.DeletedAt ≠ some 0 := by
  unfold specDeletedAtNonzero
  rcases hd : u.DeletedAt with - | t <;> simp

/-- Spec invariant 5 is exactly "UserID is not the present nil
identifier". -/
theorem spec_userID_nonnil_iff (u : Unit) :
    specUserIDNonNil u ↔ u.UserID ≠ some 0 := by
  unfold specUserIDNonNil
  rcases hx : u.UserID with - | x <;> simp

/-- When `UseCase.Update` succeeds after fetching exactly `[u]`, the
returned unit is the touched, renamed `u`. -/
theorem update_ok_inversion (repo : Repo) (now : Nat) (id userID : Nat)
    (name : String) (u v : Unit)
    (hfetch : repo.getByIDsResp [id] = .ok [u])
    (hok : (UseCase.Update repo now id userID name).1 = .ok v) :
    v = { u.Touch now with Name := name } := by
  unfold UseCase.Update at hok
  rw [hfetch] at hok
  dsimp only at hok
  rcases huid : u.UserID with - | owner <;> rw [huid] at hok <;> dsimp only at hok
  · simp at hok
  · by_cases he : owner = userID
    · subst he
      rw [if_neg (by simp)] at hok
      split at hok
      · simp at hok
      · split at hok
        · simp at hok
        · simp at hok
          exact hok.symm
    · rw [if_pos he] at hok
      simp at hok

/-- When `UseCase.Delete` succeeds after fetching exactly `[u]`, the
returned unit is `u` marked deleted. -/
theorem delete_ok_inversion (repo : Repo) (now : Nat) (id : Nat) (u v : Unit)
    (hfetch : repo.getByIDsResp [id] = .ok [u])
    (hok : (UseCase.Delete repo now id).1 = .ok v) :
    v = u.MarkDeleted now := by
  unfold UseCase.Delete at hok
  rw [hfetch] at hok
  dsimp only at hok
  split at hok
  · simp at hok
  · simp at hok
    exact hok.symm

/-! Claim C1. -/

/-- C1 counterexample: the tag-only `Validate` of
`src/internal/entities/unit/unit.go` accepts a `Unit` whose `DeletedAt` is
present but is the zero timestamp (spec invariant 4 violated), so
"Validate returns success if and only if all five data-model invariants
hold" fails for that cited `Validate`. -/
theorem validate_tag_only_accepts_zero_deletedAt :
    Unit.Validate zeroDeletedUnit = none ∧ zeroDeletedUnit.DeletedAt = some 0 := by
  constructor <;> rfl

/-- C1 (amended): the `unitEntity` variant's `Validate` succeeds exactly
when all five spec invariants hold — in particular it rejects a
present-zero `deletedAt` and a present-nil `userID` — while the tag-only
`Validate` of unit.go checks exactly invariants 1–3 and accepts any
present `deletedAt`/`userID` value.  (Both are value-receiver functions,
so neither mutates the `Unit`.) -/
theorem validate_iff_invariants (u : Unit) :
    (Unit.ValidateEntity u = none ↔ specInvariants u) ∧
    (Unit.Validate u = none ↔
      (specFieldsPresent u ∧ specVersionPos u ∧ specUpdatedGeCreated u)) := by
  have h1 := validateEntity_none_iff_parts u
  have h2 := validateTags_none_iff u
  have h3 := spec_deletedAt_nonzero_iff u
  have h4 := spec_userID_nonnil_iff u
  constructor
  · rw [h1, h2]
    unfold specInvariants specFieldsPresent specVersionPos specUpdatedGeCreated
    rw [← h3, ← h4]
    tauto
  · unfold Unit.Validate
    rw [h2]
    unfold specFieldsPresent specVersionPos specUpdatedGeCreated
    tauto

/-! Claim C3. -/

/-- C3 counterexample: under the `unitEntity` variant's `Validate` (cited
by the claim via `unitEntity.New`), a unit freshly constructed with a
present-but-nil owner and a non-empty name fails validation, so "Validate
succeeds on the freshly constructed Unit for every owner" is false. -/
theorem new_nil_owner_fails_entity_validate :
    Unit.ValidateEntity (New 1 1 (some uuidNil) "Alpha") = some .userIDNil ∧
    (New 1 1 (some uuidNil) "Alpha").Name ≠ "" := by
  constructor
  · rfl
  · decide

/-- C3 (amended): for every owner and name the constructor yields
`version = 1` and `createdAt = updatedAt`; given a fresh non-nil id and a
non-zero clock, a non-empty name makes the tag-only `Validate` succeed for
every owner, and makes the `unitEntity` variant's `Validate` succeed
provided the owner is not the present nil identifier. -/
theorem new_unit_defaults (id now : Nat) (owner : Option Nat) (name : String) :
    (New id now owner name).Version = 1 ∧
    (New id now owner name).CreatedAt = (New id now owner name).UpdatedAt ∧
    (id ≠ 0 → now ≠ 0 → name ≠ "" →
      Unit.Validate (New id now owner name) = none ∧
      (owner ≠ some uuidNil → Unit.ValidateEntity (New id now owner name) = none)) := by
  refine ⟨rfl, rfl, ?_⟩
  intro hid hnow hname
  have ht : (New id now owner name).validateTags = none :=
    (validateTags_none_iff (New id now owner name)).mpr
      ⟨hid, le_refl 1, hnow, hnow, le_refl now, hname⟩
  refine ⟨ht, ?_⟩
  intro howner
  rw [validateEntity_none_iff_parts]
  refine ⟨ht, ?_, ?_⟩
  · show (none : Option Nat) ≠ some 0
    simp
  · show owner ≠ some 0
    exact howner

/-- Witness for `new_unit_defaults` at a concrete fresh id, clock, owner
and name. -/
theorem new_unit_defaults_witness :
    Unit.Validate (New 1 1 (some 2) "Alpha") = none ∧
    Unit.ValidateEntity (New 1 1 (some 2) "Alpha") = none := by
  have h := new_unit_defaults 1 1 (some 2) "Alpha"
  have h2 := h.2.2 (by decide) (by decide) (by decide)
  exact ⟨h2.1, h2.2 (by decide)⟩

/-! Claim C4. -/

/-- C4 counterexample: at the 64-bit `int` maximum, `Touch` wraps the
version counter to the minimum instead of incrementing it by 1, so
"increments version by exactly 1 for every prior state" fails. -/
theorem touch_wraps_at_max_int64 :
    (maxVersionUnit.Touch 2).Version = -(2 ^ 63) ∧
    (maxVersionUnit.Touch 2).Version ≠ maxVersionUnit.Version + 1 := by
  constructor <;> decide

/-- C4 (amended): for every prior state whose version is a representable
64-bit `int` below the maximum, `Touch` increments the version by exactly
1, and it sets `updatedAt` to the current clock value, which is `≥` the
previous `updatedAt` whenever the clock has not gone backwards; `Touch`
through an unset/absent (nil) instance reference is a no-op. -/
theorem touch_increments_version (u : Unit) (now : Nat)
    (hlo : -(2 ^ 63) ≤ u.Version) (hhi : u.Version < 2 ^ 63 - 1)
    (hclock : u.UpdatedAt ≤ now) :
    (u.Touch now).Version = u.Version + 1 ∧
    u.UpdatedAt ≤ (u.Touch now).UpdatedAt ∧
    touchRef none now = none := by
  refine ⟨?_, hclock, rfl⟩
  show wrap64 (u.Version + 1) = u.Version + 1
  unfold wrap64
  omega

/-- Witness for `touch_increments_version` on a concrete stored unit. -/
theorem touch_increments_version_witness :
    (sampleUnit.Touch 9).Version = sampleUnit.Version + 1 ∧
    sampleUnit.UpdatedAt ≤ (sampleUnit.Touch 9).UpdatedAt ∧
    touchRef none 9 = none :=
  touch_increments_version sampleUnit 9 (by decide) (by decide) (by decide)

/-! Claim C2. -/

/-- C2: for every stored unit fetched by `Update` (in both the `UseCase`
and the `Service` variant): an absent owner yields `UserIDMissing`, a
present owner different from the requesting user yields `UserIDMismatch`
— in both cases the call log holds only the fetch, so no repository write
is issued and the stored state is unchanged — and when the owner equals
the requesting user the result is never one of the two ownership
errors. -/
theorem update_ownership_checks (repo : Repo) (srepo : SRepo) (now : Nat)
    (id userID : Nat) (name : String) (u : Unit)
    (hfetch : repo.getByIDsResp [id] = .ok [u])
    (hfetchS : srepo.getByIDResp id = .ok u) :
    (u.UserID = none →
      UseCase.Update repo now id userID name =
        (.error .userIDMissing, [.getByIDs [id]]) ∧
      Service.Update srepo now id userID name =
        (.error .userIDMissing, [.getByID id])) ∧
    (∀ owner, u.UserID = some owner → owner ≠ userID →
      UseCase.Update repo now id userID name =
        (.error .userIDMismatch, [.getByIDs [id]]) ∧
      Service.Update srepo now id userID name =
        (.error .userIDMismatch, [.getByID id])) ∧
    (u.UserID = some userID →
      (UseCase.Update repo now id userID name).1 ≠ .error .userIDMissing ∧
      (UseCase.Update repo now id userID name).1 ≠ .error .userIDMismatch ∧
      (Service.Update srepo now id userID name).1 ≠ .error .userIDMissing ∧
      (Service.Update srepo now id userID name).1 ≠ .error .userIDMismatch) := by
  refine ⟨?_, ?_, ?_⟩
  · intro huid
    constructor
    · unfold UseCase.Update
      rw [hfetch]
      dsimp only
      rw [huid]
    · unfold Service.Update
      rw [hfetchS]
      dsimp only
      rw [huid]
  · intro owner huid hne
    constructor
    · unfold UseCase.Update
      rw [hfetch]
      dsimp only
      rw [huid]
      dsimp only
      rw [if_pos hne]
    · unfold Service.Update
      rw [hfetchS]
      dsimp only
      rw [huid]
      dsimp only
      rw [if_pos hne]
  · intro huid
    refine ⟨?_, ?_, ?_, ?_⟩
    · unfold UseCase.Update
      rw [hfetch]
      dsimp only
      rw [huid]
      dsimp only
      rw [if_neg (by simp)]
      split
      · simp
      · split <;> simp
    · unfold UseCase.Update
      rw [hfetch]
      dsimp only
      rw [huid]
      dsimp only
      rw [if_neg (by simp)]
      split
      · simp
      · split <;> simp
    · unfold Service.Update
      rw [hfetchS]
      dsimp only
      rw [huid]
      dsimp only
      rw [if_neg (by simp)]
      split
      · simp
      · split <;> simp
    · unfold Service.Update
      rw [hfetchS]
      dsimp only
      rw [huid]
      dsimp only
      rw [if_neg (by simp)]
      split
      · simp
      · split <;> simp

/-- Witness for `update_ownership_checks`: the absent-owner, mismatching
and matching cases at concrete repositories. -/
theorem update_ownership_checks_witness :
    UseCase.Update orphanRepo 9 7 5 "beta" =
      (.error .userIDMissing, [.getByIDs [7]]) ∧
    UseCase.Update sampleRepo 9 7 6 "beta" =
      (.error .userIDMismatch, [.getByIDs [7]]) ∧
    (UseCase.Update sampleRepo 9 7 5 "beta").1 ≠ .error .userIDMismatch := by
  have h1 := update_ownership_checks orphanRepo orphanSRepo 9 7 5 "beta"
    orphanUnit rfl rfl
  have h2 := update_ownership_checks sampleRepo sampleSRepo 9 7 6 "beta"
    sampleUnit rfl rfl
  have h3 := update_ownership_checks sampleRepo sampleSRepo 9 7 5 "beta"
    sampleUnit rfl rfl
  exact ⟨(h1.1 rfl).1, (h2.2.1 5 rfl (by decide)).1, (h3.2.2 rfl).2.1⟩

/-! Claim C5. -/

/-- C5: `MarkDeleted` sets `deletedAt` to the same (non-zero, for a
non-zero clock) timestamp as the resulting `updatedAt` and keeps the
version; hence `Delete` on an existing unit returns that unit marked
deleted — with `deletedAt` set and the version it had when fetched — and
persists exactly it. -/
theorem markDeleted_sets_deletedAt (u : Unit) (now : Nat) (hnow : now ≠ 0) :
    (u.MarkDeleted now).DeletedAt = some (u.MarkDeleted now).UpdatedAt ∧
    (u.MarkDeleted now).DeletedAt ≠ some 0 ∧
    (u.MarkDeleted now).Version = u.Version ∧
    (∀ repo id, repo.getByIDsResp [id] = .ok [u] →
      repo.updateResp (u.MarkDeleted now) = none →
      UseCase.Delete repo now id =
        (.ok (u.MarkDeleted now), [.getByIDs [id], .update (u.MarkDeleted now)])) := by
  refine ⟨rfl, ?_, rfl, ?_⟩
  · show some now ≠ some 0
    simp [hnow]
  · intro repo id hfetch hup
    unfold UseCase.Delete
    rw [hfetch]
    dsimp only
    rw [hup]

/-- Witness for `markDeleted_sets_deletedAt` on a concrete stored unit. -/
theorem markDeleted_sets_deletedAt_witness :
    UseCase.Delete sampleRepo 9 7 =
      (.ok (sampleUnit.MarkDeleted 9), [.getByIDs [7], .update (sampleUnit.MarkDeleted 9)]) ∧
    (sampleUnit.MarkDeleted 9).Version = sampleUnit.Version ∧
    (sampleUnit.MarkDeleted 9).DeletedAt ≠ some 0 := by
  have h := markDeleted_sets_deletedAt sampleUnit 9 (by decide)
  exact ⟨h.2.2.2 sampleRepo 7 rfl rfl, h.2.2.1, h.2.1⟩

/-! Claim C6. -/

/-- C6: a unit whose `deletedAt` is present keeps it present through every
operation of this core: `Touch` and `MarkDeleted` leave it present, and
any unit successfully returned by `Update` or `Delete` after fetching that
unit still has `deletedAt` present. -/
theorem deleted_stays_deleted (u : Unit) (now : Nat)
    (h : u.DeletedAt.isSome) :
    (u.Touch now).DeletedAt.isSome ∧
    (u.MarkDeleted now).DeletedAt.isSome ∧
    (∀ repo id userID name v,
      repo.getByIDsResp [id] = .ok [u] →
      (UseCase.Update repo now id userID name).1 = .ok v →
      v.DeletedAt.isSome) ∧
    (∀ repo id v,
      repo.getByIDsResp [id] = .ok [u] →
      (UseCase.Delete repo now id).1 = .ok v →
      v.DeletedAt.isSome) := by
  refine ⟨h, rfl, ?_, ?_⟩
  · intro repo id userID name v hfetch hok
    rw [update_ok_inversion repo now id userID name u v hfetch hok]
    exact h
  · intro repo id v hfetch hok
    rw [delete_ok_inversion repo now id u v hfetch hok]
    rfl

/-- Witness for `deleted_stays_deleted` on a concrete soft-deleted
unit. -/
theorem deleted_stays_deleted_witness :
    (deletedUnit.Touch 9).DeletedAt.isSome ∧
    (deletedUnit.MarkDeleted 9).DeletedAt.isSome := by
  have h := deleted_stays_deleted deletedUnit 9 (by decide)
  exact ⟨h.1, h.2.1⟩

/-! Claim C7. -/

/-- C7: `GetByIDs` with an empty id list fails with `BadParams` and issues
no repository call, for every injected repository. -/
theorem getByIDs_empty_bad_params (repo : Repo) :
    UseCase.GetByIDs repo [] =
      (.error (.badParams "ids must not be empty"), []) := rfl

/-! Claim C8. -/

/-- C8: `GetAll` with a present-but-empty substring filter fails with
`BadParams` and issues no repository call, for every injected repository
and requesting user. -/
theorem getAll_empty_substring_bad_params (repo : Repo) (userID : Nat) :
    UseCase.GetAll repo userID (some "") =
      (.error (.badParams "substring must not be empty when set"), []) := rfl

/-! Claim C9. -/

/-- C9: when the by-id fetch of `Update` or `Delete` returns a number of
records other than one, the operation fails with the
`expected 1 unit, got %d` error — a constructor distinct from `BadParams`
and from both ownership errors — and the call log holds only the fetch,
so no repository write is issued. -/
theorem lookup_count_error_distinct (repo : Repo) (now : Nat)
    (id userID : Nat) (name : String) (units : List Unit)
    (hfetch : repo.getByIDsResp [id] = .ok units) (hn : units.length ≠ 1) :
    UseCase.Update repo now id userID name =
      (.error (.wrongCount "get unit by id for update" units.length),
        [.getByIDs [id]]) ∧
    UseCase.Delete repo now id =
      (.error (.wrongCount "get unit by id for delete" units.length),
        [.getByIDs [id]]) ∧
    (∀ c n d, UCError.wrongCount c n ≠ .badParams d) ∧
    (∀ c n, UCError.wrongCount c n ≠ .userIDMissing) ∧
    (∀ c n, UCError.wrongCount c n ≠ .userIDMismatch) := by
  refine ⟨?_, ?_, ?_, ?_, ?_⟩
  · unfold UseCase.Update
    rw [hfetch]
    rcases units with - | ⟨a, - | ⟨b, t⟩⟩
    · rfl
    · simp at hn
    · rfl
  · unfold UseCase.Delete
    rw [hfetch]
    rcases units with - | ⟨a, - | ⟨b, t⟩⟩
    · rfl
    · simp at hn
    · rfl
  · intro c n d hc
    simp at hc
  · intro c n hc
    simp at hc
  · intro c n hc
    simp at hc

/-- Witness for `lookup_count_error_distinct` against a repository holding
no record at the fetched id. -/
theorem lookup_count_error_distinct_witness :
    UseCase.Update emptyRepo 9 7 5 "beta" =
      (.error (.wrongCount "get unit by id for update" 0), [.getByIDs [7]]) ∧
    UseCase.Delete emptyRepo 9 7 =
      (.error (.wrongCount "get unit by id for delete" 0), [.getByIDs [7]]) := by
  have h := lookup_count_error_distinct emptyRepo 9 7 5 "beta" [] rfl (by decide)
  exact ⟨h.1, h.2.1⟩

/-! Claim C10. -/

/-- C10: `UseCase.Create` always constructs the unit with its owner
present (`UserID = some userID`), for every caller-supplied user id
including the nil identifier; under the tag-only `Validate` the freshly
constructed unit with a non-empty name passes validation, so when the
repository accepts the write, `Create` returns the persisted unit with the
present owner. -/
theorem create_owner_always_present (repo : Repo) (newID now userID : Nat)
    (name : String) (hid : newID ≠ 0) (hnow : now ≠ 0) (hname : name ≠ "") :
    (New newID now (some userID) name).UserID = some userID ∧
    Unit.Validate (New newID now (some userID) name) = none ∧
    (repo.createResp (New newID now (some userID) name) = none →
      UseCase.Create repo newID now userID name =
        (.ok (New newID now (some userID) name),
          [.create (New newID now (some userID) name)])) := by
  have hv : Unit.Validate (New newID now (some userID) name) = none :=
    (validateTags_none_iff (New newID now (some userID) name)).mpr
      ⟨hid, le_refl 1, hnow, hnow, le_refl now, hname⟩
  refine ⟨rfl, hv, ?_⟩
  intro hc
  unfold UseCase.Create
  dsimp only
  rw [show Unit.Validate (New newID now (some userID) name) = none from hv]
  dsimp only
  rw [hc]

/-- Witness for `create_owner_always_present` at the nil owner UUID, the
case the claim singles out. -/
theorem create_owner_always_present_witness :
    UseCase.Create emptyRepo 1 1 uuidNil "Alpha" =
      (.ok (New 1 1 (some uuidNil) "Alpha"),
        [.create (New 1 1 (some uuidNil) "Alpha")]) ∧
    (New 1 1 (some uuidNil) "Alpha").UserID = some uuidNil := by
  have h := create_owner_always_present emptyRepo 1 1 uuidNil "Alpha"
    (by decide) (by decide) (by decide)
  exact ⟨h.2.2 rfl, h.1⟩

end UnitService
